import Mathlib

/-!
Verification development for a recurrent actor-critic training program
(`actor_critic_14.py`).

The program is embedded shallowly:

* tensors become `Fin`-indexed functions into `ℝ` (exact-real idealisation of
  `float32`), with batch-major index order matching the source;
* the single floating-point partiality phenomenon the claims care about,
  `NaN` produced by taking the mean of an empty tensor, is modelled by
  `Option ℝ` (`none` = NaN) at the points where the source calls `.mean()` /
  `F.mse_loss`;
* fallible code (the `assert` statements of `forward`, the partial-termination
  assertion of `batch_rollout`, calling the LSTM cell with an absent hidden
  state) returns `Except ACError`;
* the mutable hidden state `(self.hx, self.cx)` of the `ActorCritic` module is
  threaded explicitly as a value of type `Hidden`;
* randomness (`Categorical(...).sample()`) is abstracted by a sampling oracle
  passed to the rollout loop, and the environment collaborator is abstracted
  by an explicit state machine `EnvM`, exactly as described by the external
  interface `step(actions) -> (obs0, obs1, rewards, dones)`;
* gradient/autograd semantics (needed for the `detach`/`no_grad` claims) are
  modelled by forward-mode dual numbers: a `Dual` carries a value and its
  directional derivative along an arbitrary perturbation of the parameters;
  `detach` and `torch.no_grad` zero the derivative component.
-/

noncomputable section

/-! ### Tensors, means, NaN model -/

/-- A `(3, 64, 64)` observation image, float-valued. -/
def Obs : Type := Fin 3 → Fin 64 → Fin 64 → ℝ

/-- A batch of `N` observations, shape `(N, 3, 64, 64)`. -/
def ObsB (N : ℕ) : Type := Fin N → Obs

/-- `torch.Tensor.mean()` over a `(B, S)` tensor: `NaN` (modelled as `none`)
on an empty tensor, otherwise the arithmetic mean of all elements. -/
def torchMean {B S : ℕ} (f : Fin B → Fin S → ℝ) : Option ℝ :=
  if B * S = 0 then none
  else some ((∑ b : Fin B, ∑ t : Fin S, f b t) / (B * S))

/-- NaN-propagating addition on `Option ℝ` (NaN = `none`). -/
def nAdd : Option ℝ → Option ℝ → Option ℝ
  | some a, some b => some (a + b)
  | _, _ => none

/-- `.detach()` on a tensor element: numerically the identity (the gradient
semantics of `detach` live in the dual-number model below). -/
def detach (x : ℝ) : ℝ := x

/-- `.byte()` applied after `.mul(255)`: multiply by 255 and truncate to an
8-bit integer.  On the `[0,1]` floats it is applied to, truncation toward
zero is the floor. -/
def byteOf (v : ℝ) : ℕ := (Int.floor ((255 : ℝ) * v)).toNat

/-! ### Categorical distribution (`torch.distributions.Categorical`)

`Categorical(logits=L)` normalises the logits by their log-sum-exp;
`log_prob(a)` is the normalised logit of `a`, `entropy()` is
`-(probs * log_probs).sum()`. -/

/-- Log-sum-exp of a 7-way logit vector. -/
def catLse (L : Fin 7 → ℝ) : ℝ := Real.log (∑ a : Fin 7, Real.exp (L a))

/-- `Categorical(logits=L).log_prob(a)`. -/
def catLogProb (L : Fin 7 → ℝ) (a : Fin 7) : ℝ := L a - catLse L

/-- The probability `softmax(L) a`. -/
def catProb (L : Fin 7 → ℝ) (a : Fin 7) : ℝ := Real.exp (L a - catLse L)

/-- `Categorical(logits=L).entropy()`. -/
def catEntropy (L : Fin 7 → ℝ) : ℝ :=
  -(∑ a : Fin 7, catProb L a * (L a - catLse L))

/-! ### λ-returns (`compute_lambda_returns`, imported from `utils`) -/

/-- Clamp a `Fin T`-indexed row to a total function on `ℕ` (out-of-range
reads never occur along the recursion; the default is irrelevant). -/
def extR {T : ℕ} (f : Fin T → ℝ) : ℕ → ℝ :=
  fun k => if h : k < T then f ⟨k, h⟩ else 0

/-- Boolean variant of `extR`. -/
def extB {T : ℕ} (f : Fin T → Bool) : ℕ → Bool :=
  fun k => if h : k < T then f ⟨k, h⟩ else false

/-- Backward λ-return recursion, counting the remaining distance to the last
index: `lamRetAux ... last k` is the λ-return at step `last - k`. -/
def lamRetAux (gamma lambda_ : ℝ) (r : ℕ → ℝ) (e : ℕ → Bool) (v : ℕ → ℝ)
    (last : ℕ) : ℕ → ℝ
  | 0 => v last
  | k + 1 =>
      r (last - (k + 1)) +
        (if e (last - (k + 1)) then 0
         else gamma * ((1 - lambda_) * v (last - (k + 1) + 1) +
            lambda_ * lamRetAux gamma lambda_ r e v last k))

/-- λ-return at step `t` of a trajectory whose last index is `last`. -/
def lamRet (gamma lambda_ : ℝ) (r : ℕ → ℝ) (e : ℕ → Bool) (v : ℕ → ℝ)
    (last t : ℕ) : ℝ :=
  lamRetAux gamma lambda_ r e v last (last - t)

/-- Modelled from the spec: `compute_lambda_returns` is imported from the
`utils` module, which is not among the source files.  Spec semantics
(§4.3): the returns are computed backward from the final step with
`return[T] = value[T]` as the base case; at terminal steps flagged by
`ends` the bootstrap target is truncated (no value continuation beyond the
episode end); otherwise
`return[t] = reward[t] + gamma * ((1-lambda_) * value[t+1] + lambda_ * return[t+1])`.
The calling convention matches the call site in `compute_loss`: all inputs
share one `(B, T)` shape, the final slot being the bootstrap-only one. -/
def compute_lambda_returns {B T : ℕ} (rewards values : Fin B → Fin T → ℝ)
    (ends : Fin B → Fin T → Bool) (gamma lambda_ : ℝ) :
    Fin B → Fin T → ℝ :=
  fun b t =>
    lamRet gamma lambda_ (extR (rewards b)) (extB (ends b)) (extR (values b))
      (T - 1) t.val

/-! ### Loss bundle (`LossWithIntermediateLosses`, imported from `utils`) -/

/-- Modelled from the spec: `LossWithIntermediateLosses` is imported from the
`utils` module, which is not among the source files.  Spec semantics (§3):
a loss bundle holds three scalar components — action loss, value loss,
entropy loss — plus their sum (`loss_total`). -/
structure LossWithIntermediateLosses where
  loss_actions : Option ℝ
  loss_values : Option ℝ
  loss_entropy : Option ℝ

/-- The sum of the three components of a loss bundle (NaN-propagating). -/
def LossWithIntermediateLosses.loss_total (l : LossWithIntermediateLosses) :
    Option ℝ :=
  nAdd (nAdd l.loss_actions l.loss_values) l.loss_entropy

/-! ### `RolloutOutput` -/

/-- The trajectory bundle produced by `batch_rollout` for `B` environments
over `T` timesteps.  Index order is batch-major `(B, T, ...)` as in the
source; observations are stored as 8-bit naturals, actions as 7-way
indices (they are sampled from 7-way categorical distributions). -/
@[ext]
structure RolloutOutput (B T : ℕ) where
  observations : Fin B → Fin T → Fin 3 → Fin 64 → Fin 64 → ℕ
  actions0 : Fin B → Fin T → Fin 7
  actions1 : Fin B → Fin T → Fin 7
  logits_actions0 : Fin B → Fin T → Fin 7 → ℝ
  logits_actions1 : Fin B → Fin T → Fin 7 → ℝ
  values : Fin B → Fin T → ℝ
  rewards : Fin B → Fin T → ℝ
  ends : Fin B → Fin T → Bool

/-- The slice `[:, :-1]` of a `(B, T)` tensor row. -/
def slTl {T : ℕ} {α : Type} (f : Fin T → α) (t : Fin (T - 1)) : α :=
  f (Fin.castLE (Nat.sub_le T 1) t)

/-! ### `ActorCritic.compute_loss` (source lines 94–118) -/

/-- `ActorCritic.compute_loss`: λ-return targets under `no_grad`, slice off
the final bootstrap-only timestep, per-head policy-gradient and entropy
losses, one shared value-regression loss, and the mean total reward.
Returns `(losses_head0, losses_head1, rewards_total)`. -/
def compute_loss {B T : ℕ} (outputs : RolloutOutput B T)
    (gamma lambda_ entropy_weight : ℝ) :
    LossWithIntermediateLosses × LossWithIntermediateLosses × ℝ :=
  let rewards_total : ℝ := (∑ b : Fin B, ∑ t : Fin T, outputs.rewards b t) / B
  let lambda_returns : Fin B → Fin (T - 1) → ℝ := fun b t =>
    slTl (compute_lambda_returns outputs.rewards outputs.values outputs.ends
      gamma lambda_ b) t
  let values : Fin B → Fin (T - 1) → ℝ := fun b t => slTl (outputs.values b) t
  let log_probs0 : Fin B → Fin (T - 1) → ℝ := fun b t =>
    catLogProb (slTl (outputs.logits_actions0 b) t) (slTl (outputs.actions0 b) t)
  let log_probs1 : Fin B → Fin (T - 1) → ℝ := fun b t =>
    catLogProb (slTl (outputs.logits_actions1 b) t) (slTl (outputs.actions1 b) t)
  let loss_actions0 : Option ℝ :=
    (torchMean fun b t =>
      log_probs0 b t * (lambda_returns b t - detach (values b t))).map
      (fun m => -1 * m)
  let loss_actions1 : Option ℝ :=
    (torchMean fun b t =>
      log_probs1 b t * (lambda_returns b t - detach (values b t))).map
      (fun m => -1 * m)
  let loss_entropy0 : Option ℝ :=
    (torchMean fun b t => catEntropy (slTl (outputs.logits_actions0 b) t)).map
      (fun m => -entropy_weight * m)
  let loss_entropy1 : Option ℝ :=
    (torchMean fun b t => catEntropy (slTl (outputs.logits_actions1 b) t)).map
      (fun m => -entropy_weight * m)
  let loss_values : Option ℝ :=
    torchMean fun b t => (values b t - lambda_returns b t) ^ 2
  (⟨loss_actions0, loss_values, loss_entropy0⟩,
   ⟨loss_actions1, loss_values, loss_entropy1⟩,
   rewards_total)

/-! ### Network layers (`nn.Conv2d`, `nn.MaxPool2d`, `F.relu`, `nn.LSTMCell`,
`nn.Linear`) -/

/-- Weights of a 3×3 `nn.Conv2d(cin, cout, 3, stride=1, padding=1)`. -/
structure ConvW (cin cout : ℕ) where
  w : Fin cout → Fin cin → Fin 3 → Fin 3 → ℝ
  b : Fin cout → ℝ

/-- Weights of an `nn.Linear(din, dout)`. -/
structure LinW (din dout : ℕ) where
  w : Fin dout → Fin din → ℝ
  b : Fin dout → ℝ

/-- Weights of an `nn.LSTMCell(1024, 512)` (gate order i, f, g, o). -/
structure LSTMW where
  wih : Fin 2048 → Fin 1024 → ℝ
  whh : Fin 2048 → Fin 512 → ℝ
  bih : Fin 2048 → ℝ
  bhh : Fin 2048 → ℝ

/-- Zero-padded read of a `(c, s, s)` feature map at integer coordinates. -/
def padGet {c s : ℕ} (x : Fin c → Fin s → Fin s → ℝ) (ch : Fin c)
    (i j : ℤ) : ℝ :=
  if h : 0 ≤ i ∧ i < s ∧ 0 ≤ j ∧ j < s then
    x ch ⟨i.toNat, by omega⟩ ⟨j.toNat, by omega⟩
  else 0

/-- 3×3 convolution, stride 1, padding 1 (spatial size preserved). -/
def conv3x3 {cin cout s : ℕ} (W : ConvW cin cout)
    (x : Fin cin → Fin s → Fin s → ℝ) : Fin cout → Fin s → Fin s → ℝ :=
  fun o i j =>
    W.b o + ∑ c : Fin cin, ∑ di : Fin 3, ∑ dj : Fin 3,
      W.w o c di dj * padGet x c ((i : ℤ) + di - 1) ((j : ℤ) + dj - 1)

/-- `nn.MaxPool2d(2, 2)`: halve the spatial resolution, taking the max of
each 2×2 block. -/
def maxPool2 {c s : ℕ} (x : Fin c → Fin s → Fin s → ℝ) :
    Fin c → Fin (s / 2) → Fin (s / 2) → ℝ :=
  fun ch i j =>
    max (max (x ch ⟨2 * i, by omega⟩ ⟨2 * j, by omega⟩)
             (x ch ⟨2 * i, by omega⟩ ⟨2 * j + 1, by omega⟩))
        (max (x ch ⟨2 * i + 1, by omega⟩ ⟨2 * j, by omega⟩)
             (x ch ⟨2 * i + 1, by omega⟩ ⟨2 * j + 1, by omega⟩))

/-- `F.relu`, applied pointwise to a feature map. -/
def reluT {c s : ℕ} (x : Fin c → Fin s → Fin s → ℝ) :
    Fin c → Fin s → Fin s → ℝ :=
  fun ch i j => max 0 (x ch i j)

/-- `torch.flatten(..., start_dim=1)` of one row of a `(N, 64, 4, 4)` map,
row-major. -/
def flatten64x4 (x : Fin 64 → Fin 4 → Fin 4 → ℝ) : Fin 1024 → ℝ :=
  fun k => x ⟨k / 16, by omega⟩ ⟨k % 16 / 4, by omega⟩ ⟨(k : ℕ) % 4, by omega⟩

/-- The logistic sigmoid. -/
def sigmoid (x : ℝ) : ℝ := 1 / (1 + Real.exp (-x))

/-- One step of `nn.LSTMCell(1024, 512)`: returns `(h', c')`. -/
def lstmCell (W : LSTMW) (x : Fin 1024 → ℝ) (hx cx : Fin 512 → ℝ) :
    (Fin 512 → ℝ) × (Fin 512 → ℝ) :=
  let pre : Fin 2048 → ℝ := fun g =>
    W.bih g + W.bhh g + (∑ k : Fin 1024, W.wih g k * x k) +
      ∑ k : Fin 512, W.whh g k * hx k
  let gi : Fin 512 → ℝ := fun k => sigmoid (pre ⟨(k : ℕ), by omega⟩)
  let gf : Fin 512 → ℝ := fun k => sigmoid (pre ⟨512 + (k : ℕ), by omega⟩)
  let gg : Fin 512 → ℝ := fun k => Real.tanh (pre ⟨1024 + (k : ℕ), by omega⟩)
  let go : Fin 512 → ℝ := fun k => sigmoid (pre ⟨1536 + (k : ℕ), by omega⟩)
  let c' : Fin 512 → ℝ := fun k => gf k * cx k + gi k * gg k
  (fun k => go k * Real.tanh (c' k), c')

/-- Apply an `nn.Linear`. -/
def linApp {din dout : ℕ} (L : LinW din dout) (x : Fin din → ℝ) :
    Fin dout → ℝ :=
  fun o => L.b o + ∑ k : Fin din, L.w o k * x k

/-! ### The `ActorCritic` module -/

/-- The learned parameters of `ActorCritic.__init__`: four 3×3 conv stages
(channel progression 3→32→32→64→64), an `LSTMCell(1024, 512)`, and three
linear heads (critic 512→1, two actors 512→7). -/
structure ActorCritic where
  conv1 : ConvW 3 32
  conv2 : ConvW 32 32
  conv3 : ConvW 32 64
  conv4 : ConvW 64 64
  lstm : LSTMW
  critic_linear : LinW 512 1
  actor_linear0 : LinW 512 7
  actor_linear1 : LinW 512 7

/-- The recurrent hidden state `(self.hx, self.cx)`: either absent (`None`)
or present for a batch of `n` environments. -/
inductive Hidden where
  | absent : Hidden
  | present : (n : ℕ) → (hx : Fin n → Fin 512 → ℝ) → (cx : Fin n → Fin 512 → ℝ) → Hidden

/-- `ActorCritic.clear`: discard the hidden state. -/
def clearH (_ : Hidden) : Hidden := Hidden.absent

/-- `ActorCritic.reset(n)`: allocate zeroed hidden state for a batch of `n`. -/
def resetH (n : ℕ) (_ : Hidden) : Hidden :=
  Hidden.present n (fun _ _ => 0) (fun _ _ => 0)

/-- Per-step per-environment output of `ActorCritic.forward`: two 7-way
logit heads of shape `(N, 1, 7)` and a value of shape `(N, 1, 1)`. -/
structure ActorCriticOutput (N : ℕ) where
  logits_actions0 : Fin N → Fin 1 → Fin 7 → ℝ
  logits_actions1 : Fin N → Fin 1 → Fin 7 → ℝ
  means_values : Fin N → Fin 1 → Fin 1 → ℝ

/-- The pixel rescaling `x.mul(2).sub(1)`: maps `[0,1]` to `[-1,1]`. -/
def scaleObs {N : ℕ} (x : ObsB N) : ObsB N :=
  fun b c i j => 2 * x b c i j - 1

/-- The implementation's 4-stage feature extractor (source lines 80–84):
each stage is `F.relu(self.maxp_k(self.conv_k(x)))`, i.e. convolution,
then 2×2 max-pool, then ReLU; then flatten to a 1024-vector. -/
def featuresImpl (ac : ActorCritic) (x : Obs) : Fin 1024 → ℝ :=
  flatten64x4
    (reluT (maxPool2 (conv3x3 ac.conv4
      (reluT (maxPool2 (conv3x3 ac.conv3
        (reluT (maxPool2 (conv3x3 ac.conv2
          (reluT (maxPool2 (conv3x3 ac.conv1 x))))))))))))

/-- The feature extractor as the spec words it (§4.1): "each stage: 3×3 conv
stride 1 pad 1, ReLU, 2×2 max-pool", then flatten.  Definition follows the
spec, to be compared with `featuresImpl` (refinement claim C7). -/
def featuresSpec (ac : ActorCritic) (x : Obs) : Fin 1024 → ℝ :=
  flatten64x4
    (maxPool2 (reluT (conv3x3 ac.conv4
      (maxPool2 (reluT (conv3x3 ac.conv3
        (maxPool2 (reluT (conv3x3 ac.conv2
          (maxPool2 (reluT (conv3x3 ac.conv1 x))))))))))))

/-- Errors of the embedded program.  `assertFail` covers the `assert`
statements of `forward` and `batch_rollout` (and the `RuntimeError` that
`inputs.min()` raises on an empty batch); `hiddenAbsent` is the failure of
`self.lstm(x, (None, None))` when `forward` runs without a prior `reset`;
`shapeMismatch` is the LSTM batch-size mismatch when the hidden state was
reset for a different batch size. -/
inductive ACError where
  | assertFail : ACError
  | hiddenAbsent : ACError
  | shapeMismatch : ACError
deriving DecidableEq

/-- The range precondition asserted by `forward` (line 77):
`0 <= inputs.min() <= 1 and 0 <= inputs.max() <= 1`, which for a nonempty
batch is equivalent to every pixel lying in `[0,1]`. -/
def RangeOK {N : ℕ} (x : ObsB N) : Prop :=
  ∀ b c i j, 0 ≤ x b c i j ∧ x b c i j ≤ 1

/-- The pipeline of `forward` after the pixel rescaling (source lines 80–92):
extract features, run the LSTM cell on each row of the hidden state, and
project through the three heads (with the explicit singleton time axis of
the `rearrange` calls). -/
def forwardFromScaled (ac : ActorCritic) {N : ℕ} (hx cx : Fin N → Fin 512 → ℝ)
    (xs : ObsB N) : ActorCriticOutput N × Hidden :=
  let feat : Fin N → Fin 1024 → ℝ := fun b => featuresImpl ac (xs b)
  let hc : Fin N → (Fin 512 → ℝ) × (Fin 512 → ℝ) := fun b =>
    lstmCell ac.lstm (feat b) (hx b) (cx b)
  (⟨fun b _ a => linApp ac.actor_linear0 ((hc b).1) a,
    fun b _ a => linApp ac.actor_linear1 ((hc b).1) a,
    fun b _ _ => linApp ac.critic_linear ((hc b).1) ⟨0, by omega⟩⟩,
   Hidden.present N (fun b => (hc b).1) (fun b => (hc b).2))

/-- The success value of `forward` on a shape-correct batch: rescale the
pixels with `x.mul(2).sub(1)` (source line 79), then run the rest of the
pipeline. -/
def forwardVal (ac : ActorCritic) {N : ℕ} (hx cx : Fin N → Fin 512 → ℝ)
    (x : ObsB N) : ActorCriticOutput N × Hidden :=
  forwardFromScaled ac hx cx (scaleObs x)

open Classical in
/-- `ActorCritic.forward` on a shape-correct `(N, 3, 64, 64)` batch: check
the value-range assertion (which on an empty batch fails inside
`inputs.min()`), then use the hidden state, which must be present for the
same batch size. -/
def forwardCore (ac : ActorCritic) {N : ℕ} (h : Hidden) (x : ObsB N) :
    Except ACError (ActorCriticOutput N × Hidden) :=
  if N = 0 then .error .assertFail
  else if _hr : RangeOK x then
    match h with
    | .absent => .error .hiddenAbsent
    | .present m hx cx =>
      if hm : m = N then
        .ok (forwardVal ac (fun b => hx (Fin.cast hm.symm b))
          (fun b => cx (Fin.cast hm.symm b)) x)
      else .error .shapeMismatch
  else .error .assertFail

/-- A dynamically-shaped input tensor: a shape and an index function, used
to state the shape assertions of `forward` (line 76) on arbitrary-rank
inputs. -/
structure DInput where
  shape : List ℕ
  data : List ℕ → ℝ

/-- The shape assertion of `forward` (line 76):
`inputs.ndim == 4 and inputs.shape[1:] == (3, 64, 64)`. -/
def DShapeOK (x : DInput) : Prop :=
  x.shape.length = 4 ∧ x.shape.drop 1 = [3, 64, 64]

/-- The batch dimension of a dynamically-shaped input. -/
def headN (x : DInput) : ℕ := x.shape.headD 0

/-- The typed view of a shape-correct dynamic input. -/
def dView (x : DInput) : ObsB (headN x) :=
  fun b c i j => x.data [(b : ℕ), (c : ℕ), (i : ℕ), (j : ℕ)]

open Classical in
/-- `ActorCritic.forward` (source lines 75–92), on a dynamically-shaped
input: the shape assertion runs first, before the value-range assertion
and before the hidden state is touched. -/
def forward (ac : ActorCritic) (h : Hidden) (x : DInput) :
    Except ACError ((N : ℕ) × (ActorCriticOutput N × Hidden)) :=
  if DShapeOK x then
    (forwardCore ac h (dView x)).map (fun r => ⟨headN x, r⟩)
  else .error .assertFail

/-! ### The environment collaborator and `batch_rollout` (source lines 121–177)

The vectorized environment is the external collaborator of §6:
`reset()` and `step(actions[N,2]) -> (obs0, obs1, rewards, dones)`, modelled
as an explicit state machine.  The random draws of
`Categorical(logits=...).sample()` are abstracted by a sampling oracle
giving, for each loop iteration, the two sampled 7-way action tokens of
every environment. -/

/-- The vectorized environment of batch size `n` over internal state `σ`. -/
structure EnvM (n : ℕ) (σ : Type) where
  reset : σ → σ
  step : σ → (Fin n → ℕ × ℕ) →
    σ × (Fin n → Obs) × (Fin n → Obs) × (Fin n → ℝ) × (Fin n → Bool)

/-- A sampling oracle: the actions drawn at loop iteration `t`. -/
def Sampler (n : ℕ) : Type := ℕ → (Fin n → Fin 7) × (Fin n → Fin 7)

/-- Assemble the collected per-step records into a `RolloutOutput`
(source lines 168–177): stack along the time axis, rescale observations
with `.mul(255).byte()`, and drop the singleton axes of actions, logits
and values. -/
def buildOutput {n t : ℕ} (obsA : Fin t → Fin n → Obs)
    (a0 a1 : Fin t → Fin n → Fin 7)
    (l0 l1 : Fin t → Fin n → Fin 7 → ℝ)
    (vals rews : Fin t → Fin n → ℝ)
    (endsA : Fin t → Fin n → Bool) : RolloutOutput n t where
  observations := fun b s c i j => byteOf (obsA s b c i j)
  actions0 := fun b s => a0 s b
  actions1 := fun b s => a1 s b
  logits_actions0 := fun b s => l0 s b
  logits_actions1 := fun b s => l1 s b
  values := fun b s => vals s b
  rewards := fun b s => rews s b
  ends := fun b s => endsA s b

/-- The body of `for _ in range(200)` (source lines 137–165), with the
collected records accumulated in time-indexed arrays.  Each iteration runs
the model forward (its assertions may fail), samples the two action
tokens, records observation/actions/logits/value, steps the environment,
records reward/termination, and breaks — asserting synchronized
termination — as soon as any environment reports done.  Both exits clear
the model's hidden state (`actor0.clear()`) and build the output. -/
def rolloutLoop {n : ℕ} {σ : Type} (ac : ActorCritic) (env : EnvM n σ)
    (sampler : Sampler n) (fuel t : ℕ) (s : σ) (h : Hidden)
    (obss0 : Fin n → Obs)
    (obsA : Fin t → Fin n → Obs) (a0 a1 : Fin t → Fin n → Fin 7)
    (l0 l1 : Fin t → Fin n → Fin 7 → ℝ) (vals rews : Fin t → Fin n → ℝ)
    (endsA : Fin t → Fin n → Bool) :
    Except ACError ((T : ℕ) × RolloutOutput n T × Hidden) :=
  match fuel with
  | 0 =>
      .ok ⟨t, buildOutput obsA a0 a1 l0 l1 vals rews endsA, clearH h⟩
  | fuel + 1 =>
    match forwardCore ac h obss0 with
    | .error e => .error e
    | .ok oh =>
      -- `oh.1` is `outputs_ac0`, `oh.2` the updated hidden state;
      -- `(sampler t).1/.2` are the sampled `action_token0/1`;
      -- `st` is `envs.step(...)`: `(s', obss0', obss1', step_rewards, dones)`
      -- as nested projections.
      let st := env.step s
        (fun i => (((sampler t).1 i : ℕ), ((sampler t).2 i : ℕ)))
      if ∃ i, st.2.2.2.2 i = true then
        if ∀ i, st.2.2.2.2 i = true then
          .ok ⟨t + 1,
            buildOutput (Fin.snoc obsA obss0) (Fin.snoc a0 (sampler t).1)
              (Fin.snoc a1 (sampler t).2)
              (Fin.snoc l0 (fun b => oh.1.logits_actions0 b 0))
              (Fin.snoc l1 (fun b => oh.1.logits_actions1 b 0))
              (Fin.snoc vals (fun b => oh.1.means_values b 0 0))
              (Fin.snoc rews st.2.2.2.1) (Fin.snoc endsA st.2.2.2.2),
            clearH oh.2⟩
        else .error .assertFail
      else
        rolloutLoop ac env sampler fuel (t + 1) st.1 oh.2 st.2.1
          (Fin.snoc obsA obss0) (Fin.snoc a0 (sampler t).1)
          (Fin.snoc a1 (sampler t).2)
          (Fin.snoc l0 (fun b => oh.1.logits_actions0 b 0))
          (Fin.snoc l1 (fun b => oh.1.logits_actions1 b 0))
          (Fin.snoc vals (fun b => oh.1.means_values b 0 0))
          (Fin.snoc rews st.2.2.2.1) (Fin.snoc endsA st.2.2.2.2)

/-- `batch_rollout(actor0, envs)` (source lines 121–177): reset the model's
hidden state for `n` environments, reset the environment batch, obtain the
initial observation with a null action pair, then run the collection loop
for at most 200 steps. -/
def batch_rollout {n : ℕ} {σ : Type} (ac : ActorCritic) (env : EnvM n σ)
    (sampler : Sampler n) (s0 : σ) (h0 : Hidden) :
    Except ACError ((T : ℕ) × RolloutOutput n T × Hidden) :=
  let st0 := env.step (env.reset s0) (fun _ => (0, 0))
  rolloutLoop ac env sampler 200 0 st0.1 (resetH n h0) st0.2.1
    Fin.elim0 Fin.elim0 Fin.elim0 Fin.elim0 Fin.elim0 Fin.elim0 Fin.elim0
    Fin.elim0

/-! ### Autograd semantics of `compute_loss` (forward-mode dual numbers)

A `Dual` is a tensor element of the autodiff graph: its value `re` together
with its directional derivative `du` along an arbitrary perturbation of the
network parameters.  `detach` keeps the value and kills the derivative;
`torch.no_grad()` makes a whole computation derivative-free.  The action-loss
computation of `compute_loss` (source lines 96–112) is re-traced on duals to
settle the gradient-flow claim. -/

/-- A value of the autodiff graph: value and directional derivative. -/
structure Dual where
  re : ℝ
  du : ℝ

/-- Dual addition. -/
def dAdd (x y : Dual) : Dual := ⟨x.re + y.re, x.du + y.du⟩

/-- Dual subtraction. -/
def dSub (x y : Dual) : Dual := ⟨x.re - y.re, x.du - y.du⟩

/-- Dual multiplication (product rule). -/
def dMul (x y : Dual) : Dual := ⟨x.re * y.re, x.du * y.re + x.re * y.du⟩

/-- Dual negation. -/
def dNeg (x : Dual) : Dual := ⟨-x.re, -x.du⟩

/-- Dual exponential. -/
def dExp (x : Dual) : Dual := ⟨Real.exp x.re, x.du * Real.exp x.re⟩

/-- Dual logarithm. -/
def dLog (x : Dual) : Dual := ⟨Real.log x.re, x.du / x.re⟩

/-- A constant of the graph (no derivative). -/
def dConst (c : ℝ) : Dual := ⟨c, 0⟩

/-- `.detach()`: same value, no derivative. -/
def detachD (x : Dual) : Dual := ⟨x.re, 0⟩

/-- Sum of a finite family of duals. -/
def dSum {k : ℕ} (f : Fin k → Dual) : Dual :=
  ⟨∑ i : Fin k, (f i).re, ∑ i : Fin k, (f i).du⟩

/-- `.mean()` of a `(B, S)` dual tensor (the empty case is irrelevant to the
gradient-flow claim; the derivative of a mean is the mean of the
derivatives). -/
def dMean {B S : ℕ} (f : Fin B → Fin S → Dual) : Dual :=
  ⟨(∑ b : Fin B, ∑ t : Fin S, (f b t).re) / (B * S),
   (∑ b : Fin B, ∑ t : Fin S, (f b t).du) / (B * S)⟩

/-- `Categorical(logits=L).log_prob(a)` on duals. -/
def dCatLogProb (L : Fin 7 → Dual) (a : Fin 7) : Dual :=
  dSub (L a) (dLog (dSum fun i => dExp (L i)))

/-- The λ-return targets of `compute_loss` in the autodiff graph: computed
under `with torch.no_grad()` (source lines 96–103), so they carry no
derivative — they are constants whose value is the λ-return of the
value-estimate values. -/
def lambdaReturnsD {B T : ℕ} (rewards values : Fin B → Fin T → Dual)
    (ends : Fin B → Fin T → Bool) (gamma lambda_ : ℝ) :
    Fin B → Fin T → Dual :=
  fun b t =>
    dConst (compute_lambda_returns (fun b t => (rewards b t).re)
      (fun b t => (values b t).re) ends gamma lambda_ b t)

/-- The policy-gradient loss of action head 0 (source line 111) in the
autodiff graph:
`-1 * (log_probs0 * (lambda_returns - values.detach())).mean()`. -/
def loss_actions0D {B T : ℕ} (logits0 : Fin B → Fin T → Fin 7 → Dual)
    (actions0 : Fin B → Fin T → Fin 7)
    (rewards values : Fin B → Fin T → Dual) (ends : Fin B → Fin T → Bool)
    (gamma lambda_ : ℝ) : Dual :=
  let lambda_returns : Fin B → Fin (T - 1) → Dual := fun b t =>
    slTl (lambdaReturnsD rewards values ends gamma lambda_ b) t
  let valuesS : Fin B → Fin (T - 1) → Dual := fun b t => slTl (values b) t
  let log_probs0 : Fin B → Fin (T - 1) → Dual := fun b t =>
    dCatLogProb (slTl (logits0 b) t) (slTl (actions0 b) t)
  dNeg (dMean fun b t =>
    dMul (log_probs0 b t) (dSub (lambda_returns b t) (detachD (valuesS b t))))

/-- The policy-gradient loss of action head 1 (source line 112) in the
autodiff graph. -/
def loss_actions1D {B T : ℕ} (logits1 : Fin B → Fin T → Fin 7 → Dual)
    (actions1 : Fin B → Fin T → Fin 7)
    (rewards values : Fin B → Fin T → Dual) (ends : Fin B → Fin T → Bool)
    (gamma lambda_ : ℝ) : Dual :=
  let lambda_returns : Fin B → Fin (T - 1) → Dual := fun b t =>
    slTl (lambdaReturnsD rewards values ends gamma lambda_ b) t
  let valuesS : Fin B → Fin (T - 1) → Dual := fun b t => slTl (values b) t
  let log_probs1 : Fin B → Fin (T - 1) → Dual := fun b t =>
    dCatLogProb (slTl (logits1 b) t) (slTl (actions1 b) t)
  dNeg (dMean fun b t =>
    dMul (log_probs1 b t) (dSub (lambda_returns b t) (detachD (valuesS b t))))

/-! ### Concrete objects used to exercise the theorems -/

/-- An `ActorCritic` whose learned parameters are all zero. -/
def zeroAC : ActorCritic where
  conv1 := ⟨fun _ _ _ _ => 0, fun _ => 0⟩
  conv2 := ⟨fun _ _ _ _ => 0, fun _ => 0⟩
  conv3 := ⟨fun _ _ _ _ => 0, fun _ => 0⟩
  conv4 := ⟨fun _ _ _ _ => 0, fun _ => 0⟩
  lstm := ⟨fun _ _ => 0, fun _ _ => 0, fun _ => 0, fun _ => 0⟩
  critic_linear := ⟨fun _ _ => 0, fun _ => 0⟩
  actor_linear0 := ⟨fun _ _ => 0, fun _ => 0⟩
  actor_linear1 := ⟨fun _ _ => 0, fun _ => 0⟩

/-- The all-black observation. -/
def zeroObs : Obs := fun _ _ _ => 0

/-- A batch of all-black observations. -/
def zeroObsB (n : ℕ) : ObsB n := fun _ => zeroObs

/-- An environment of batch size 1 that always shows the black observation
and terminates every episode at its first step. -/
def envDone1 : EnvM 1 Unit where
  reset := fun s => s
  step := fun s _ => (s, zeroObsB 1, zeroObsB 1, fun _ => 0, fun _ => true)

/-- An environment of batch size 2 whose first step terminates environment 0
but not environment 1 — the partial-termination scenario. -/
def envPartial : EnvM 2 Unit where
  reset := fun s => s
  step := fun s _ => (s, zeroObsB 2, zeroObsB 2, fun _ => 0, fun i => i = 0)

/-- The sampling oracle that always draws action token 0. -/
def sampler0 (n : ℕ) : Sampler n := fun _ => (fun _ => 0, fun _ => 0)

/-- A concrete all-zero rollout bundle with `B = 1`, `T = 2`. -/
def exRollout : RolloutOutput 1 2 where
  observations := fun _ _ _ _ _ => 0
  actions0 := fun _ _ => 0
  actions1 := fun _ _ => 0
  logits_actions0 := fun _ _ _ => 0
  logits_actions1 := fun _ _ _ => 0
  values := fun _ _ => 0
  rewards := fun _ _ => 0
  ends := fun _ _ => false

/-- A constant `(1, 2)`-shaped dual tensor carrying no derivative. -/
def dualsZero : Fin 1 → Fin 2 → Dual := fun _ _ => ⟨0, 0⟩

/-- A constant `(1, 2)`-shaped dual tensor with the same values as
`dualsZero` but a nonzero derivative: a perturbation of the value head
output only. -/
def dualsPerturbed : Fin 1 → Fin 2 → Dual := fun _ _ => ⟨0, 1⟩

/-- A constant `(1, 2, 7)`-shaped dual logit tensor. -/
def dualLogits : Fin 1 → Fin 2 → Fin 7 → Dual := fun _ _ _ => ⟨0, 0⟩

/-- The rollout bundle that `batch_rollout` collects from `envDone1` with the
zero-weight network: one all-black, immediately-terminated step. -/
def exOut1 : RolloutOutput 1 1 where
  observations := fun _ _ _ _ _ => 0
  actions0 := fun _ _ => 0
  actions1 := fun _ _ => 0
  logits_actions0 := fun _ _ _ => 0
  logits_actions1 := fun _ _ _ => 0
  values := fun _ _ => 0
  rewards := fun _ _ => 0
  ends := fun _ _ => true

/-- A dynamic input of wrong rank (a vector of length 3). -/
def badInput : DInput where
  shape := [3]
  data := fun _ => 0

/-- A shape-correct `(1, 3, 64, 64)` dynamic input holding a constant 2 —
every pixel out of range. -/
def outOfRangeInput : DInput where
  shape := [1, 3, 64, 64]
  data := fun _ => 2

/-- A shape-correct `(1, 3, 64, 64)` all-black dynamic input. -/
def blackInput : DInput where
  shape := [1, 3, 64, 64]
  data := fun _ => 0

/-! ### λ-return unfolding lemmas -/

theorem lamRet_last (gamma lambda_ : ℝ) (r : ℕ → ℝ) (e : ℕ → Bool)
    (v : ℕ → ℝ) (last : ℕ) :
    lamRet gamma lambda_ r e v last last = v last := by
  simp [lamRet, lamRetAux]

theorem lamRet_step (gamma lambda_ : ℝ) (r : ℕ → ℝ) (e : ℕ → Bool)
    (v : ℕ → ℝ) (last t : ℕ) (h : t < last) :
    lamRet gamma lambda_ r e v last t =
      r t + (if e t then 0
        else gamma * ((1 - lambda_) * v (t + 1) +
          lambda_ * lamRet gamma lambda_ r e v last (t + 1))) := by
  unfold lamRet
  have h1 : last - t = (last - (t + 1)) + 1 := by omega
  rw [h1]
  show lamRetAux gamma lambda_ r e v last ((last - (t + 1)) + 1) = _
  rw [lamRetAux]
  have h2 : last - ((last - (t + 1)) + 1) = t := by omega
  rw [h2]

/-- C3: the λ-return computation invoked by `compute_loss` satisfies: the
base case is `return[last] = value[last]`, computed backward; at terminal
steps the bootstrap is truncated, so a single-step trajectory with
`ends = [True]` (one actual step plus the bootstrap-only slot) has
`lambda_return[0] = reward[0]`; and at `lambda_ = 0` the return at a
non-terminal step `t` is the one-step TD target
`reward[t] + gamma * value[t+1]`. -/
theorem c3_lambda_return_semantics :
    (∀ (B T : ℕ) (hT : 0 < T) (r v : Fin B → Fin T → ℝ)
        (e : Fin B → Fin T → Bool) (gamma lambda_ : ℝ) (b : Fin B),
      compute_lambda_returns r v e gamma lambda_ b ⟨T - 1, by omega⟩ =
        v b ⟨T - 1, by omega⟩) ∧
    (∀ (B : ℕ) (r v : Fin B → Fin 2 → ℝ) (e : Fin B → Fin 2 → Bool)
        (gamma lambda_ : ℝ) (b : Fin B), e b 0 = true →
      compute_lambda_returns r v e gamma lambda_ b 0 = r b 0) ∧
    (∀ (B T : ℕ) (r v : Fin B → Fin T → ℝ) (e : Fin B → Fin T → Bool)
        (gamma : ℝ) (b : Fin B) (t : Fin T) (ht : (t : ℕ) < T - 1),
      e b t = false →
      compute_lambda_returns r v e gamma 0 b t =
        r b t + gamma * v b ⟨(t : ℕ) + 1, by omega⟩) := by
  refine ⟨?base, ?single, ?td⟩
  · intro B T hT r v e gamma lambda_ b
    unfold compute_lambda_returns
    rw [lamRet_last]
    simp only [extR]
    rw [dif_pos (by omega : T - 1 < T)]
  · intro B r v e gamma lambda_ b he
    unfold compute_lambda_returns
    rw [show ((0 : Fin 2) : ℕ) = 0 from rfl]
    rw [lamRet_step _ _ _ _ _ _ _ (by norm_num : (0 : ℕ) < 2 - 1)]
    simp only [extR, extB]
    rw [dif_pos (by norm_num : (0 : ℕ) < 2)]
    rw [dif_pos (by norm_num : (0 : ℕ) < 2)]
    have h0 : (⟨0, by norm_num⟩ : Fin 2) = 0 := rfl
    rw [h0, he]
    simp
  · intro B T r v e gamma b t ht he
    unfold compute_lambda_returns
    rw [lamRet_step _ _ _ _ _ _ _ (by omega : (t : ℕ) < T - 1)]
    simp only [extR, extB]
    rw [dif_pos (by omega : (t : ℕ) < T)]
    rw [dif_pos (by omega : (t : ℕ) < T)]
    rw [dif_pos (by omega : (t : ℕ) + 1 < T)]
    have ht' : (⟨(t : ℕ), by omega⟩ : Fin T) = t := rfl
    rw [ht', he]
    simp

/-- Witness for C3: the single-step-terminal conjunct at a concrete
trajectory with `reward[0] = 3`: the λ-return at step 0 is exactly 3. -/
theorem c3_lambda_return_semantics_witness :
    (fun (_ : Fin 1) (_ : Fin 2) => true) 0 0 = true ∧
    compute_lambda_returns (fun (_ : Fin 1) (_ : Fin 2) => (3 : ℝ))
      (fun _ _ => 5) (fun _ _ => true) (1 / 2) (1 / 4) 0 0 = 3 :=
  ⟨rfl, c3_lambda_return_semantics.2.1 1 _ _ _ (1 / 2) (1 / 4) 0 rfl⟩

/-- `torchMean` on a nonempty tensor. -/
theorem torchMean_eq {B S : ℕ} (f : Fin B → Fin S → ℝ) (h : ¬ B * S = 0) :
    torchMean f =
      some ((∑ b : Fin B, ∑ t : Fin S, f b t) / ((B : ℝ) * (S : ℝ))) := by
  rw [torchMean, if_neg h]

/-- The head-0 action loss of `compute_loss`, by unfolding. -/
theorem compute_loss_la0 {B T : ℕ} (o : RolloutOutput B T) (g l w : ℝ) :
    (compute_loss o g l w).1.loss_actions =
      (torchMean fun b t =>
        catLogProb (slTl (o.logits_actions0 b) t) (slTl (o.actions0 b) t) *
          (slTl (compute_lambda_returns o.rewards o.values o.ends g l b) t -
            detach (slTl (o.values b) t))).map (fun m => -1 * m) := rfl

/-- The head-1 action loss of `compute_loss`, by unfolding. -/
theorem compute_loss_la1 {B T : ℕ} (o : RolloutOutput B T) (g l w : ℝ) :
    (compute_loss o g l w).2.1.loss_actions =
      (torchMean fun b t =>
        catLogProb (slTl (o.logits_actions1 b) t) (slTl (o.actions1 b) t) *
          (slTl (compute_lambda_returns o.rewards o.values o.ends g l b) t -
            detach (slTl (o.values b) t))).map (fun m => -1 * m) := rfl

/-- The head-0 entropy loss of `compute_loss`, by unfolding. -/
theorem compute_loss_le0 {B T : ℕ} (o : RolloutOutput B T) (g l w : ℝ) :
    (compute_loss o g l w).1.loss_entropy =
      (torchMean fun b t =>
        catEntropy (slTl (o.logits_actions0 b) t)).map (fun m => -w * m) := rfl

/-- The head-1 entropy loss of `compute_loss`, by unfolding. -/
theorem compute_loss_le1 {B T : ℕ} (o : RolloutOutput B T) (g l w : ℝ) :
    (compute_loss o g l w).2.1.loss_entropy =
      (torchMean fun b t =>
        catEntropy (slTl (o.logits_actions1 b) t)).map (fun m => -w * m) := rfl

/-- The shared value loss of `compute_loss`, by unfolding. -/
theorem compute_loss_lv {B T : ℕ} (o : RolloutOutput B T) (g l w : ℝ) :
    (compute_loss o g l w).1.loss_values =
      torchMean fun b t =>
        (slTl (o.values b) t -
          slTl (compute_lambda_returns o.rewards o.values o.ends g l b) t) ^ 2 :=
  rfl

/-- The value loss stored in the head-1 bundle, by unfolding: the same
expression as in the head-0 bundle. -/
theorem compute_loss_lv1 {B T : ℕ} (o : RolloutOutput B T) (g l w : ℝ) :
    (compute_loss o g l w).2.1.loss_values =
      torchMean fun b t =>
        (slTl (o.values b) t -
          slTl (compute_lambda_returns o.rewards o.values o.ends g l b) t) ^ 2 :=
  rfl

/-- C1: on a rollout with at least 2 timesteps (and a nonempty batch),
`compute_loss` returns one loss bundle per action head in which: the
action loss of each head is the negative mean, over the batch and over all
timesteps except the final one, of the log-probability of the action taken
(under the categorical distribution of that head's logits) times the
advantage (λ-return minus value estimate); the entropy loss of each head
is `-entropy_weight` times the mean entropy of that head's distribution;
and one shared value loss — the mean-squared error between the value
estimates and the λ-returns, both excluding the final timestep — is
included identically in both heads' bundles (hence double-counted when the
two totals are summed). -/
theorem c1_compute_loss_formulas {B T : ℕ} (o : RolloutOutput B T)
    (gamma lambda_ entropy_weight : ℝ) (hB : 0 < B) (hT : 2 ≤ T) :
    (compute_loss o gamma lambda_ entropy_weight).1.loss_actions =
      some (-((∑ b : Fin B, ∑ t : Fin (T - 1),
        catLogProb (slTl (o.logits_actions0 b) t) (slTl (o.actions0 b) t) *
          (slTl (compute_lambda_returns o.rewards o.values o.ends
              gamma lambda_ b) t - slTl (o.values b) t)) /
        ((B : ℝ) * ((T - 1 : ℕ) : ℝ)))) ∧
    (compute_loss o gamma lambda_ entropy_weight).2.1.loss_actions =
      some (-((∑ b : Fin B, ∑ t : Fin (T - 1),
        catLogProb (slTl (o.logits_actions1 b) t) (slTl (o.actions1 b) t) *
          (slTl (compute_lambda_returns o.rewards o.values o.ends
              gamma lambda_ b) t - slTl (o.values b) t)) /
        ((B : ℝ) * ((T - 1 : ℕ) : ℝ)))) ∧
    (compute_loss o gamma lambda_ entropy_weight).1.loss_entropy =
      some (-(entropy_weight *
        ((∑ b : Fin B, ∑ t : Fin (T - 1),
          catEntropy (slTl (o.logits_actions0 b) t)) /
          ((B : ℝ) * ((T - 1 : ℕ) : ℝ))))) ∧
    (compute_loss o gamma lambda_ entropy_weight).2.1.loss_entropy =
      some (-(entropy_weight *
        ((∑ b : Fin B, ∑ t : Fin (T - 1),
          catEntropy (slTl (o.logits_actions1 b) t)) /
          ((B : ℝ) * ((T - 1 : ℕ) : ℝ))))) ∧
    (compute_loss o gamma lambda_ entropy_weight).1.loss_values =
      some ((∑ b : Fin B, ∑ t : Fin (T - 1),
        (slTl (o.values b) t - slTl (compute_lambda_returns o.rewards
          o.values o.ends gamma lambda_ b) t) ^ 2) /
        ((B : ℝ) * ((T - 1 : ℕ) : ℝ))) ∧
    (compute_loss o gamma lambda_ entropy_weight).2.1.loss_values =
      (compute_loss o gamma lambda_ entropy_weight).1.loss_values := by
  have hne : ¬ B * (T - 1) = 0 := by
    intro h
    rcases Nat.mul_eq_zero.mp h with h | h <;> omega
  refine ⟨?_, ?_, ?_, ?_, ?_, ?_⟩
  · rw [compute_loss_la0, torchMean_eq _ hne, Option.map_some']
    simp only [detach, neg_one_mul]
  · rw [compute_loss_la1, torchMean_eq _ hne, Option.map_some']
    simp only [detach, neg_one_mul]
  · rw [compute_loss_le0, torchMean_eq _ hne, Option.map_some']
    rw [neg_mul]
  · rw [compute_loss_le1, torchMean_eq _ hne, Option.map_some']
    rw [neg_mul]
  · rw [compute_loss_lv, torchMean_eq _ hne]
  · rw [compute_loss_lv1, compute_loss_lv]

/-- Witness for C1: the shared-value-loss conjuncts at the concrete all-zero
rollout with `B = 1`, `T = 2`. -/
theorem c1_compute_loss_formulas_witness :
    (0 < 1 ∧ 2 ≤ 2) ∧
    (compute_loss exRollout (99 / 100) (95 / 100) (1 / 1000)).2.1.loss_values =
      (compute_loss exRollout (99 / 100) (95 / 100) (1 / 1000)).1.loss_values :=
  ⟨⟨Nat.one_pos, le_refl 2⟩,
    (c1_compute_loss_formulas exRollout (99 / 100) (95 / 100) (1 / 1000)
      Nat.one_pos (le_refl 2)).2.2.2.2.2⟩

/-- `torchMean` on an empty tensor is NaN. -/
theorem torchMean_empty {B S : ℕ} (f : Fin B → Fin S → ℝ) (h : B * S = 0) :
    torchMean f = none := by
  rw [torchMean, if_pos h]

/-- C10: `compute_loss` excludes the final timestep from every loss term, so
on a rollout with a single timestep (`T = 1`, an episode terminating on
its first step) every loss component — and hence both bundles' totals —
is the mean of an empty tensor, i.e. NaN (modelled as `none`), while
`compute_loss` itself still returns normally: it contains no assertion,
and in this embedding it is a total function. -/
theorem c10_single_timestep_nan {B : ℕ} (o : RolloutOutput B 1)
    (gamma lambda_ entropy_weight : ℝ) :
    (compute_loss o gamma lambda_ entropy_weight).1.loss_actions = none ∧
    (compute_loss o gamma lambda_ entropy_weight).2.1.loss_actions = none ∧
    (compute_loss o gamma lambda_ entropy_weight).1.loss_entropy = none ∧
    (compute_loss o gamma lambda_ entropy_weight).2.1.loss_entropy = none ∧
    (compute_loss o gamma lambda_ entropy_weight).1.loss_values = none ∧
    (compute_loss o gamma lambda_ entropy_weight).2.1.loss_values = none ∧
    (compute_loss o gamma lambda_ entropy_weight).1.loss_total = none ∧
    (compute_loss o gamma lambda_ entropy_weight).2.1.loss_total = none := by
  have h0 : B * (1 - 1) = 0 := by omega
  refine ⟨?_, ?_, ?_, ?_, ?_, ?_, ?_, ?_⟩
  · rw [compute_loss_la0, torchMean_empty _ h0, Option.map_none']
  · rw [compute_loss_la1, torchMean_empty _ h0, Option.map_none']
  · rw [compute_loss_le0, torchMean_empty _ h0, Option.map_none']
  · rw [compute_loss_le1, torchMean_empty _ h0, Option.map_none']
  · rw [compute_loss_lv, torchMean_empty _ h0]
  · rw [compute_loss_lv1, torchMean_empty _ h0]
  · rw [LossWithIntermediateLosses.loss_total, compute_loss_la0,
      torchMean_empty _ h0, Option.map_none']
    rfl
  · rw [LossWithIntermediateLosses.loss_total, compute_loss_la1,
      torchMean_empty _ h0, Option.map_none']
    rfl

/-- C2: in the autodiff graph of `compute_loss`, the advantage multiplies
the log-probability with the value estimate detached, and the λ-return
targets are computed under `no_grad` (their derivative component is 0);
consequently no gradient from either action loss flows into the value
head: replacing the `values` tensor by any other tensor with the same
values but arbitrarily perturbed derivative components (a perturbation of
the value output for fixed advantage) leaves both action losses — value
and derivative alike, in particular the gradient with respect to
policy-head parameters — unchanged. -/
theorem c2_policy_loss_value_decoupling {B T : ℕ}
    (logits0 logits1 : Fin B → Fin T → Fin 7 → Dual)
    (actions0 actions1 : Fin B → Fin T → Fin 7)
    (rewards values values' : Fin B → Fin T → Dual)
    (ends : Fin B → Fin T → Bool) (gamma lambda_ : ℝ)
    (h : ∀ b t, (values b t).re = (values' b t).re) :
    loss_actions0D logits0 actions0 rewards values ends gamma lambda_ =
      loss_actions0D logits0 actions0 rewards values' ends gamma lambda_ ∧
    loss_actions1D logits1 actions1 rewards values ends gamma lambda_ =
      loss_actions1D logits1 actions1 rewards values' ends gamma lambda_ ∧
    (∀ b t, (lambdaReturnsD rewards values ends gamma lambda_ b t).du = 0) := by
  have hre : (fun b t => (values b t).re) = (fun b t => (values' b t).re) := by
    funext b t
    exact h b t
  have hlr : lambdaReturnsD rewards values ends gamma lambda_ =
      lambdaReturnsD rewards values' ends gamma lambda_ := by
    unfold lambdaReturnsD
    rw [hre]
  refine ⟨?_, ?_, fun b t => rfl⟩
  · simp only [loss_actions0D]
    apply congrArg
    apply congrArg
    funext b t
    rw [hlr]
    simp only [detachD, slTl]
    rw [h]
  · simp only [loss_actions1D]
    apply congrArg
    apply congrArg
    funext b t
    rw [hlr]
    simp only [detachD, slTl]
    rw [h]

/-- Witness for C2: a concrete perturbation of only the derivative component
of the value output leaves the head-0 action loss unchanged. -/
theorem c2_policy_loss_value_decoupling_witness :
    (dualsZero 0 0).re = (dualsPerturbed 0 0).re ∧
    loss_actions0D dualLogits (fun _ _ => 0) dualsZero dualsZero
        (fun _ _ => false) (99 / 100) (95 / 100) =
      loss_actions0D dualLogits (fun _ _ => 0) dualsZero dualsPerturbed
        (fun _ _ => false) (99 / 100) (95 / 100) :=
  ⟨rfl,
    (c2_policy_loss_value_decoupling dualLogits dualLogits (fun _ _ => 0)
      (fun _ _ => 0) dualsZero dualsZero dualsPerturbed (fun _ _ => false)
      (99 / 100) (95 / 100) (fun _ _ => rfl)).1⟩

/-- `max 0` distributes over `max` (ReLU is a lattice homomorphism). -/
theorem max_zero_distrib (a b : ℝ) :
    max 0 (max a b) = max (max 0 a) (max 0 b) :=
  sup_sup_distrib_left 0 a b

/-- C7: the feature extractor is the fixed 4-stage stack with channel
progression 3→32→32→64→64 reducing 64×64 to 4×4 and flattening to a
1024-vector fed to the recurrent cell (these dimensions are enforced by
the types of `featuresImpl` and its use in `forwardVal`).  The
implementation's per-stage operation order (conv, max-pool, ReLU) is
extensionally equal to the specified order (conv, ReLU, max-pool), for
one stage and for the whole stack. -/
theorem c7_conv_stack_refinement :
    (∀ (cin cout s : ℕ) (W : ConvW cin cout)
        (x : Fin cin → Fin s → Fin s → ℝ),
      reluT (maxPool2 (conv3x3 W x)) = maxPool2 (reluT (conv3x3 W x))) ∧
    (∀ (ac : ActorCritic) (x : Obs), featuresImpl ac x = featuresSpec ac x) := by
  have key : ∀ (c s : ℕ) (y : Fin c → Fin s → Fin s → ℝ),
      reluT (maxPool2 y) = maxPool2 (reluT y) := by
    intro c s y
    funext ch i j
    simp only [reluT, maxPool2]
    rw [max_zero_distrib, max_zero_distrib, max_zero_distrib]
  constructor
  · intro cin cout s W x
    exact key _ _ _
  · intro ac x
    unfold featuresImpl featuresSpec
    rw [key, key, key, key]

/-! ### `forwardCore` characterization lemmas -/

theorem forwardCore_present_ok (ac : ActorCritic) {N : ℕ}
    (hx cx : Fin N → Fin 512 → ℝ) (x : ObsB N) (hN : 0 < N)
    (hr : RangeOK x) :
    forwardCore ac (Hidden.present N hx cx) x =
      .ok (forwardVal ac hx cx x) := by
  simp only [forwardCore]
  rw [if_neg (by omega : ¬ N = 0), dif_pos hr, dif_pos trivial]
  rfl

theorem forwardCore_absent (ac : ActorCritic) {N : ℕ} (x : ObsB N)
    (hN : 0 < N) (hr : RangeOK x) :
    forwardCore ac Hidden.absent x = .error .hiddenAbsent := by
  simp only [forwardCore]
  rw [if_neg (by omega : ¬ N = 0), dif_pos hr]

theorem forwardCore_range_fail (ac : ActorCritic) {N : ℕ} (h : Hidden)
    (x : ObsB N) (hnr : ¬ RangeOK x) :
    forwardCore ac h x = .error .assertFail := by
  simp only [forwardCore]
  by_cases hN : N = 0
  · rw [if_pos hN]
  · rw [if_neg hN, dif_neg hnr]

theorem forwardCore_empty_fail (ac : ActorCritic) {N : ℕ} (h : Hidden)
    (x : ObsB N) (hN : N = 0) :
    forwardCore ac h x = .error .assertFail := by
  simp only [forwardCore]
  rw [if_pos hN]

/-- A successful `forward` implies the value-range assertion held. -/
theorem forwardCore_ok_range (ac : ActorCritic) {N : ℕ} (h : Hidden)
    (x : ObsB N) (r : ActorCriticOutput N × Hidden)
    (hok : forwardCore ac h x = .ok r) : RangeOK x := by
  by_contra hnr
  rw [forwardCore_range_fail ac h x hnr] at hok
  exact Except.noConfusion hok

/-- The all-black batch satisfies the range precondition. -/
theorem rangeOK_zero (n : ℕ) : RangeOK (zeroObsB n) := by
  intro b c i j
  constructor <;> norm_num [zeroObsB, zeroObs]

/-- C6: on a shape-correct nonempty `(N, 3, 64, 64)` input with all pixel
values in `[0,1]` and the hidden state present for batch size `N`,
`forward` succeeds, returning per-head logits of shape `(N, 1, 7)` and a
value of shape `(N, 1, 1)` (the shapes are carried by the type
`ActorCriticOutput N`); for inputs of wrong rank or wrong
channel/spatial dimensions, or with pixel values outside `[0,1]` (or an
empty batch, where `inputs.min()` itself raises), `forward` fails with a
precondition error — and it does so for every hidden state, i.e. before
the hidden state is touched. -/
theorem c6_forward_preconditions (ac : ActorCritic) (hid : Hidden)
    (x : DInput) :
    (∀ hx cx : Fin (headN x) → Fin 512 → ℝ, DShapeOK x → 0 < headN x →
      RangeOK (dView x) →
      ∃ out h', forward ac (Hidden.present (headN x) hx cx) x =
        .ok ⟨headN x, (out, h')⟩) ∧
    (¬ DShapeOK x → forward ac hid x = .error .assertFail) ∧
    (DShapeOK x → ¬ RangeOK (dView x) →
      forward ac hid x = .error .assertFail) ∧
    (DShapeOK x → headN x = 0 → forward ac hid x = .error .assertFail) := by
  refine ⟨?_, ?_, ?_, ?_⟩
  · intro hx cx hs hN hr
    refine ⟨(forwardVal ac hx cx (dView x)).1,
      (forwardVal ac hx cx (dView x)).2, ?_⟩
    simp only [forward]
    rw [if_pos hs, forwardCore_present_ok ac hx cx (dView x) hN hr]
    rfl
  · intro hns
    simp only [forward]
    rw [if_neg hns]
  · intro hs hnr
    simp only [forward]
    rw [if_pos hs, forwardCore_range_fail ac hid (dView x) hnr]
    rfl
  · intro hs hN
    simp only [forward]
    rw [if_pos hs, forwardCore_empty_fail ac hid (dView x) hN]
    rfl

/-- Witness for C6: a rank-1 input (shape `[3]`) fails the shape assertion,
even with the hidden state absent. -/
theorem c6_forward_preconditions_witness :
    ¬ DShapeOK badInput ∧
    forward zeroAC Hidden.absent badInput = .error .assertFail :=
  ⟨by simp [DShapeOK, badInput],
    (c6_forward_preconditions zeroAC Hidden.absent badInput).2.1
      (by simp [DShapeOK, badInput])⟩

/-- C9: on every valid input, `forward` first maps each pixel `v` to
`2*v - 1` (`scaleObs`) and runs the convolution stack on the rescaled
tensor (`forwardFromScaled`), and the rescaled values all lie in
`[-1, 1]`. -/
theorem c9_input_rescaling (ac : ActorCritic) {N : ℕ}
    (hx cx : Fin N → Fin 512 → ℝ) (x : ObsB N) (hN : 0 < N)
    (hr : RangeOK x) :
    forwardCore ac (Hidden.present N hx cx) x =
      .ok (forwardFromScaled ac hx cx (scaleObs x)) ∧
    (∀ b c i j, -1 ≤ scaleObs x b c i j ∧ scaleObs x b c i j ≤ 1) := by
  refine ⟨forwardCore_present_ok ac hx cx x hN hr, ?_⟩
  intro b c i j
  have h := hr b c i j
  unfold scaleObs
  constructor <;> linarith [h.1, h.2]

/-- Witness for C9: the all-black batch is valid and its rescaled pixel at
index `(0,0,0,0)` lies in `[-1, 1]`. -/
theorem c9_input_rescaling_witness :
    (0 < 1 ∧ RangeOK (zeroObsB 1)) ∧
    (-1 ≤ scaleObs (zeroObsB 1) 0 0 0 0 ∧ scaleObs (zeroObsB 1) 0 0 0 0 ≤ 1) :=
  ⟨⟨Nat.one_pos, rangeOK_zero 1⟩,
    (c9_input_rescaling zeroAC (fun _ _ => 0) (fun _ _ => 0) (zeroObsB 1)
      Nat.one_pos (rangeOK_zero 1)).2 0 0 0 0⟩

/-! ### Rollout loop invariants -/

theorem snoc_lt {m : ℕ} {β : Type} (p : Fin m → β) (x : β) (j : Fin (m + 1))
    (hj : (j : ℕ) < m) :
    @Fin.snoc m (fun _ => β) p x j = p ⟨(j : ℕ), hj⟩ := by
  simp only [Fin.snoc, hj, dite_true, cast_eq]
  rfl

theorem snoc_last_eq {m : ℕ} {β : Type} (p : Fin m → β) (x : β)
    (j : Fin (m + 1)) (hj : (j : ℕ) = m) :
    @Fin.snoc m (fun _ => β) p x j = x := by
  have hc : j = Fin.last m := by
    apply Fin.ext
    simpa using hj
  rw [hc]
  apply Fin.snoc_last

/-- The master invariant of the collection loop: when `rolloutLoop` returns
successfully it has cleared the hidden state; it has added at most `fuel`
timesteps; every recorded termination column except possibly the final one
is all-`False` (the loop breaks at the first termination); if it stopped
before exhausting its fuel, the final column is all-`True` (synchronized
termination, enforced by the assertion); and every stored observation
byte is a `[0,1]` float multiplied by 255 and truncated. -/
theorem rolloutLoop_ok_spec {n : ℕ} {σ : Type} (ac : ActorCritic)
    (env : EnvM n σ) (sampler : Sampler n) :
    ∀ (fuel t : ℕ) (s : σ) (h : Hidden) (obss0 : Fin n → Obs)
      (obsA : Fin t → Fin n → Obs) (a0 a1 : Fin t → Fin n → Fin 7)
      (l0 l1 : Fin t → Fin n → Fin 7 → ℝ) (vals rews : Fin t → Fin n → ℝ)
      (endsA : Fin t → Fin n → Bool)
      (hEnds : ∀ (k : Fin t) (i : Fin n), endsA k i = false)
      (hObs : ∀ (k : Fin t) (i : Fin n) (c : Fin 3) (p : Fin 64) (q : Fin 64),
        0 ≤ obsA k i c p q ∧ obsA k i c p q ≤ 1)
      (r : (T : ℕ) × RolloutOutput n T × Hidden),
      rolloutLoop ac env sampler fuel t s h obss0 obsA a0 a1 l0 l1 vals rews
        endsA = .ok r →
      r.2.2 = Hidden.absent ∧ t ≤ r.1 ∧ r.1 ≤ t + fuel ∧
      (∀ (j : Fin r.1) (i : Fin n), (j : ℕ) < r.1 - 1 →
        r.2.1.ends i j = false) ∧
      (r.1 < t + fuel → ∃ hT : 0 < r.1, ∀ i : Fin n,
        r.2.1.ends i ⟨r.1 - 1, by omega⟩ = true) ∧
      (∀ (i : Fin n) (j : Fin r.1) (c : Fin 3) (p : Fin 64) (q : Fin 64),
        ∃ v : ℝ, 0 ≤ v ∧ v ≤ 1 ∧ r.2.1.observations i j c p q = byteOf v) := by
  intro fuel
  induction fuel with
  | zero =>
    intro t s h obss0 obsA a0 a1 l0 l1 vals rews endsA hEnds hObs r hok
    rw [rolloutLoop] at hok
    cases hok
    dsimp only
    refine ⟨rfl, le_refl t, by omega, ?_, ?_, ?_⟩
    · intro j i hj
      simpa [buildOutput] using hEnds j i
    · intro hlt
      exact absurd hlt (by omega)
    · intro i j c p q
      exact ⟨obsA j i c p q, (hObs j i c p q).1, (hObs j i c p q).2,
        by simp [buildOutput]⟩
  | succ fuel ih =>
    intro t s h obss0 obsA a0 a1 l0 l1 vals rews endsA hEnds hObs r hok
    cases hf : forwardCore ac h obss0 with
    | error e =>
      rw [rolloutLoop] at hok
      rw [hf] at hok
      exact Except.noConfusion hok
    | ok oh =>
      have hrange : RangeOK obss0 := forwardCore_ok_range ac h obss0 oh hf
      rw [rolloutLoop] at hok
      rw [hf] at hok
      simp only [] at hok
      by_cases hAny : ∃ i, (env.step s
          (fun i => (((sampler t).1 i : ℕ), ((sampler t).2 i : ℕ)))).2.2.2.2 i
          = true
      · rw [if_pos hAny] at hok
        by_cases hAll : ∀ i, (env.step s
            (fun i => (((sampler t).1 i : ℕ), ((sampler t).2 i : ℕ)))).2.2.2.2
            i = true
        · rw [if_pos hAll] at hok
          cases hok
          dsimp only
          refine ⟨rfl, by omega, by omega, ?_, ?_, ?_⟩
          · intro j i hj
            have hj' : (j : ℕ) < t := by omega
            simp only [buildOutput]
            rw [snoc_lt _ _ j hj']
            exact hEnds ⟨(j : ℕ), hj'⟩ i
          · intro _
            refine ⟨by omega, ?_⟩
            intro i
            simp only [buildOutput]
            rw [snoc_last_eq _ _ _ (by simp)]
            exact hAll i
          · intro i j c p q
            by_cases hj : (j : ℕ) < t
            · refine ⟨obsA ⟨(j : ℕ), hj⟩ i c p q, (hObs _ i c p q).1,
                (hObs _ i c p q).2, ?_⟩
              simp only [buildOutput]
              rw [snoc_lt _ _ j hj]
            · refine ⟨obss0 i c p q, (hrange i c p q).1,
                (hrange i c p q).2, ?_⟩
              simp only [buildOutput]
              rw [snoc_last_eq _ _ _ (by omega)]
        · rw [if_neg hAll] at hok
          exact Except.noConfusion hok
      · rw [if_neg hAny] at hok
        have hdn : ∀ i, (env.step s
            (fun i => (((sampler t).1 i : ℕ),
              ((sampler t).2 i : ℕ)))).2.2.2.2 i = false := by
          intro i
          cases hb : (env.step s
            (fun i => (((sampler t).1 i : ℕ),
              ((sampler t).2 i : ℕ)))).2.2.2.2 i with
          | false => rfl
          | true => exact absurd ⟨i, hb⟩ hAny
        have hEnds' : ∀ (k : Fin (t + 1)) (i : Fin n),
            @Fin.snoc t (fun _ => Fin n → Bool) endsA
              (env.step s (fun i => (((sampler t).1 i : ℕ),
                ((sampler t).2 i : ℕ)))).2.2.2.2 k i = false := by
          intro k i
          by_cases hk : (k : ℕ) < t
          · rw [snoc_lt _ _ k hk]
            exact hEnds ⟨(k : ℕ), hk⟩ i
          · rw [snoc_last_eq _ _ _ (by omega)]
            exact hdn i
        have hObs' : ∀ (k : Fin (t + 1)) (i : Fin n) (c : Fin 3) (p : Fin 64)
            (q : Fin 64),
            0 ≤ @Fin.snoc t (fun _ => Fin n → Obs) obsA obss0 k i c p q ∧
              @Fin.snoc t (fun _ => Fin n → Obs) obsA obss0 k i c p q ≤ 1 := by
          intro k i c p q
          by_cases hk : (k : ℕ) < t
          · rw [snoc_lt _ _ k hk]
            exact hObs ⟨(k : ℕ), hk⟩ i c p q
          · rw [snoc_last_eq _ _ _ (by omega)]
            exact hrange i c p q
        have key := ih (t + 1) _ _ _ _ _ _ _ _ _ _ _ hEnds' hObs' r hok
        refine ⟨key.1, by omega, by omega, key.2.2.2.1, ?_, key.2.2.2.2.2⟩
        intro hlt
        exact key.2.2.2.2.1 (by omega)

/-! ### Evaluation of the zero-weight network -/

/-- With all-zero convolution weights, the feature extractor outputs the
zero vector on every input. -/
theorem featuresImpl_zeroAC (x : Obs) : featuresImpl zeroAC x = fun _ => 0 := by
  funext k
  simp [featuresImpl, flatten64x4, reluT, maxPool2, conv3x3, zeroAC]

/-- The zero-weight LSTM cell on zero input and zero hidden state stays at
zero. -/
theorem lstmCell_zero :
    lstmCell zeroAC.lstm (fun _ => 0) (fun _ => 0) (fun _ => 0) =
      (fun _ => 0, fun _ => 0) := by
  unfold lstmCell
  simp [zeroAC, sigmoid]

/-- The zero-weight network's forward outputs are all zero on the all-black
batch (with zero hidden state). -/
theorem forwardVal_zero_parts {n : ℕ} (b : Fin n) :
    ((forwardVal zeroAC (fun _ _ => 0) (fun _ _ => 0) (zeroObsB n)).1.logits_actions0
        b = fun _ _ => 0) ∧
    ((forwardVal zeroAC (fun _ _ => 0) (fun _ _ => 0) (zeroObsB n)).1.logits_actions1
        b = fun _ _ => 0) ∧
    ((forwardVal zeroAC (fun _ _ => 0) (fun _ _ => 0) (zeroObsB n)).1.means_values
        b = fun _ _ => 0) := by
  unfold forwardVal forwardFromScaled
  simp only [featuresImpl_zeroAC, lstmCell_zero]
  refine ⟨?_, ?_, ?_⟩ <;> funext u a <;> simp [linApp, zeroAC]

/-- Concrete evaluation: with the zero-weight network, the always-terminating
black environment and the constant sampler, `batch_rollout` succeeds after
exactly one collected step and returns the all-zero, all-terminated bundle
with the hidden state cleared. -/
theorem batch_rollout_envDone1 :
    batch_rollout zeroAC envDone1 (sampler0 1) () Hidden.absent =
      .ok ⟨1, exOut1, Hidden.absent⟩ := by
  have hfc : forwardCore zeroAC
      (Hidden.present 1 (fun _ _ => 0) (fun _ _ => 0)) (zeroObsB 1) =
      .ok (forwardVal zeroAC (fun _ _ => 0) (fun _ _ => 0) (zeroObsB 1)) :=
    forwardCore_present_ok zeroAC _ _ _ Nat.one_pos (rangeOK_zero 1)
  show rolloutLoop zeroAC envDone1 (sampler0 1) (199 + 1) 0 ()
      (Hidden.present 1 (fun _ _ => 0) (fun _ _ => 0)) (zeroObsB 1)
      Fin.elim0 Fin.elim0 Fin.elim0 Fin.elim0 Fin.elim0 Fin.elim0 Fin.elim0
      Fin.elim0 = .ok ⟨1, exOut1, Hidden.absent⟩
  rw [rolloutLoop]
  rw [hfc]
  simp only [envDone1, sampler0]
  rw [if_pos (⟨0, trivial⟩ : ∃ _ : Fin 1, True)]
  rw [if_pos (fun _ => trivial : Fin 1 → True)]
  refine congrArg Except.ok (congrArg (Sigma.mk 1) ?_)
  refine Prod.ext ?_ rfl
  show buildOutput _ _ _ _ _ _ _ _ = exOut1
  refine RolloutOutput.ext ?_ ?_ ?_ ?_ ?_ ?_ ?_ ?_
  · funext b s c i j
    simp only [buildOutput, exOut1]
    rw [snoc_last_eq _ _ s (by omega)]
    simp [zeroObsB, zeroObs, byteOf]
  · funext b s
    simp only [buildOutput, exOut1]
    rw [snoc_last_eq _ _ s (by omega)]
  · funext b s
    simp only [buildOutput, exOut1]
    rw [snoc_last_eq _ _ s (by omega)]
  · funext b s a
    simp only [buildOutput, exOut1]
    rw [snoc_last_eq _ _ s (by omega)]
    rw [(forwardVal_zero_parts b).1]
  · funext b s a
    simp only [buildOutput, exOut1]
    rw [snoc_last_eq _ _ s (by omega)]
    rw [(forwardVal_zero_parts b).2.1]
  · funext b s
    simp only [buildOutput, exOut1]
    rw [snoc_last_eq _ _ s (by omega)]
    rw [(forwardVal_zero_parts b).2.2]
  · funext b s
    simp only [buildOutput, exOut1]
    rw [snoc_last_eq _ _ s (by omega)]
  · funext b s
    simp only [buildOutput, exOut1]
    rw [snoc_last_eq _ _ s (by omega)]

/-- Truncating a float `≤ 1` after multiplying by 255 yields a byte. -/
theorem byteOf_le_255 (v : ℝ) (h1 : v ≤ 1) : byteOf v ≤ 255 := by
  unfold byteOf
  have h2 : (255 : ℝ) * v ≤ 255 := by nlinarith
  have h3 : Int.floor ((255 : ℝ) * v) ≤ (255 : ℤ) := by
    calc Int.floor ((255 : ℝ) * v) ≤ Int.floor ((255 : ℝ)) :=
          Int.floor_le_floor h2
    _ = 255 := by norm_num
  omega

/-- C4: `batch_rollout` collects at most 200 steps; it stops at the first
step in which any environment reports termination (so all earlier columns
of `ends` are all-`False`), and when it stops early after `T < 200` steps
the final column `ends[:, T-1]` is `True` for every row; at a step where
some but not all environments report termination, the loop fails loudly
with the assertion instead of returning.  (The well-formedness of a
returned bundle — one `T` shared by all tensors — is carried by the type
`RolloutOutput n T`.) -/
theorem c4_rollout_termination {n : ℕ} {σ : Type} (ac : ActorCritic)
    (env : EnvM n σ) (sampler : Sampler n) (s0 : σ) (h0 : Hidden) :
    (∀ (T : ℕ) (out : RolloutOutput n T) (h' : Hidden),
      batch_rollout ac env sampler s0 h0 = .ok ⟨T, out, h'⟩ →
      T ≤ 200 ∧
      (∀ (j : Fin T) (i : Fin n), (j : ℕ) < T - 1 → out.ends i j = false) ∧
      (T < 200 → ∃ hT : 0 < T, ∀ i : Fin n,
        out.ends i ⟨T - 1, by omega⟩ = true)) ∧
    (∀ (fuel t : ℕ) (s : σ) (h : Hidden) (obss0 : Fin n → Obs)
        (obsA : Fin t → Fin n → Obs) (a0 a1 : Fin t → Fin n → Fin 7)
        (l0 l1 : Fin t → Fin n → Fin 7 → ℝ) (vals rews : Fin t → Fin n → ℝ)
        (endsA : Fin t → Fin n → Bool) (oh : ActorCriticOutput n × Hidden),
      forwardCore ac h obss0 = .ok oh →
      (∃ i, (env.step s (fun i => (((sampler t).1 i : ℕ),
        ((sampler t).2 i : ℕ)))).2.2.2.2 i = true) →
      ¬ (∀ i, (env.step s (fun i => (((sampler t).1 i : ℕ),
        ((sampler t).2 i : ℕ)))).2.2.2.2 i = true) →
      rolloutLoop ac env sampler (fuel + 1) t s h obss0 obsA a0 a1 l0 l1
        vals rews endsA = .error .assertFail) := by
  constructor
  · intro T out h' hok
    simp only [batch_rollout] at hok
    obtain ⟨-, -, h3, h4, h5, -⟩ := rolloutLoop_ok_spec ac env sampler 200 0
      _ _ _ _ _ _ _ _ _ _ _ (fun k _ => k.elim0) (fun k _ _ _ _ => k.elim0)
      ⟨T, out, h'⟩ hok
    dsimp only at h3 h5
    exact ⟨by omega, h4, fun hlt => h5 (by omega)⟩
  · intro fuel t s h obss0 obsA a0 a1 l0 l1 vals rews endsA oh hf hex hnall
    rw [rolloutLoop]
    rw [hf]
    simp only []
    rw [if_pos hex, if_neg hnall]

/-- Witness for C4: with the zero-weight network and an environment whose
first step terminates environment 0 but not environment 1, the loop fails
with the assertion. -/
theorem c4_rollout_termination_witness :
    rolloutLoop zeroAC envPartial (sampler0 2) 1 0 ()
      (Hidden.present 2 (fun _ _ => 0) (fun _ _ => 0)) (zeroObsB 2)
      Fin.elim0 Fin.elim0 Fin.elim0 Fin.elim0 Fin.elim0 Fin.elim0 Fin.elim0
      Fin.elim0 = .error .assertFail :=
  (c4_rollout_termination zeroAC envPartial (sampler0 2) () Hidden.absent).2
    0 0 () (Hidden.present 2 (fun _ _ => 0) (fun _ _ => 0)) (zeroObsB 2)
    Fin.elim0 Fin.elim0 Fin.elim0 Fin.elim0 Fin.elim0 Fin.elim0 Fin.elim0
    Fin.elim0 _
    (forwardCore_present_ok zeroAC _ _ _ (by omega) (rangeOK_zero 2))
    ⟨0, rfl⟩ (by intro hall; exact absurd (hall 1) (by decide))

/-- C5: the hidden state obeys the state machine over
`{absent, present(n)}`: `clear` takes any state to absent; `reset n` takes
any state to `present n` (zeroed); `reset` then `clear` leaves it absent;
`forward` on a valid input fails (`hiddenAbsent`) when the state is
absent, and maps `present N` to `present N`; and a successful
`batch_rollout` returns with the hidden state absent — it never persists
across independent rollouts. -/
theorem c5_hidden_state_machine :
    (∀ h : Hidden, clearH h = Hidden.absent) ∧
    (∀ (n : ℕ) (h : Hidden),
      resetH n h = Hidden.present n (fun _ _ => 0) (fun _ _ => 0)) ∧
    (∀ (n : ℕ) (h : Hidden), clearH (resetH n h) = Hidden.absent) ∧
    (∀ (ac : ActorCritic) (N : ℕ) (x : ObsB N), 0 < N → RangeOK x →
      forwardCore ac Hidden.absent x = .error .hiddenAbsent) ∧
    (∀ (ac : ActorCritic) (N : ℕ) (hx cx : Fin N → Fin 512 → ℝ)
        (x : ObsB N), 0 < N → RangeOK x → ∃ out hx' cx',
      forwardCore ac (Hidden.present N hx cx) x =
        .ok (out, Hidden.present N hx' cx')) ∧
    (∀ (n : ℕ) (σ : Type) (ac : ActorCritic) (env : EnvM n σ)
        (sampler : Sampler n) (s0 : σ) (h0 : Hidden) (T : ℕ)
        (out : RolloutOutput n T) (h' : Hidden),
      batch_rollout ac env sampler s0 h0 = .ok ⟨T, out, h'⟩ →
      h' = Hidden.absent) := by
  refine ⟨fun _ => rfl, fun _ _ => rfl, fun _ _ => rfl, ?_, ?_, ?_⟩
  · intro ac N x hN hr
    exact forwardCore_absent ac x hN hr
  · intro ac N hx cx x hN hr
    refine ⟨(forwardVal ac hx cx x).1,
      (fun b => (lstmCell ac.lstm (featuresImpl ac (scaleObs x b)) (hx b)
        (cx b)).1),
      (fun b => (lstmCell ac.lstm (featuresImpl ac (scaleObs x b)) (hx b)
        (cx b)).2), ?_⟩
    rw [forwardCore_present_ok ac hx cx x hN hr]
    rfl
  · intro n σ ac env sampler s0 h0 T out h' hok
    simp only [batch_rollout] at hok
    exact (rolloutLoop_ok_spec ac env sampler 200 0 _ _ _ _ _ _ _ _ _ _ _
      (fun k _ => k.elim0) (fun k _ _ _ _ => k.elim0) ⟨T, out, h'⟩ hok).1

/-- Witness for C5: `reset(3)` followed by `clear()` leaves the hidden state
absent, and the concrete rollout of `batch_rollout_envDone1` returned with
the hidden state absent. -/
theorem c5_hidden_state_machine_witness :
    clearH (resetH 3 Hidden.absent) = Hidden.absent ∧
    forwardCore zeroAC Hidden.absent (zeroObsB 1) = .error .hiddenAbsent :=
  ⟨c5_hidden_state_machine.2.2.1 3 Hidden.absent,
    c5_hidden_state_machine.2.2.2.1 zeroAC 1 (zeroObsB 1) Nat.one_pos
      (rangeOK_zero 1)⟩

/-- C8: every `RolloutOutput` produced by `batch_rollout` is well-formed:
the shared `(B, T)` shape of actions/values/rewards/ends, the `(B, T, 7)`
logits and the `(B, T, 3, 64, 64)` observations are carried by the type
`RolloutOutput n T` (all fields indexed by the one `T` of the returned
sigma); and every stored observation byte is a collected `[0,1]` float
observation multiplied by 255 and truncated to a byte (hence at most
255). -/
theorem c8_rollout_output_wellformed {n : ℕ} {σ : Type} (ac : ActorCritic)
    (env : EnvM n σ) (sampler : Sampler n) (s0 : σ) (h0 : Hidden) (T : ℕ)
    (out : RolloutOutput n T) (h' : Hidden)
    (hok : batch_rollout ac env sampler s0 h0 = .ok ⟨T, out, h'⟩) :
    (∀ (i : Fin n) (j : Fin T) (c : Fin 3) (p : Fin 64) (q : Fin 64),
      ∃ v : ℝ, 0 ≤ v ∧ v ≤ 1 ∧ out.observations i j c p q = byteOf v) ∧
    (∀ (i : Fin n) (j : Fin T) (c : Fin 3) (p : Fin 64) (q : Fin 64),
      out.observations i j c p q ≤ 255) := by
  simp only [batch_rollout] at hok
  have key := rolloutLoop_ok_spec ac env sampler 200 0 _ _ _ _ _ _ _ _ _ _ _
    (fun k _ => k.elim0) (fun k _ _ _ _ => k.elim0) ⟨T, out, h'⟩ hok
  refine ⟨key.2.2.2.2.2, ?_⟩
  intro i j c p q
  obtain ⟨v, _, hv1, he⟩ := key.2.2.2.2.2 i j c p q
  rw [he]
  exact byteOf_le_255 v hv1

/-- Witness for C8: in the concrete rollout of `batch_rollout_envDone1`,
the stored observation byte at index `(0,0,0,0,0)` is at most 255. -/
theorem c8_rollout_output_wellformed_witness :
    exOut1.observations 0 0 0 0 0 ≤ 255 :=
  (c8_rollout_output_wellformed zeroAC envDone1 (sampler0 1) ()
    Hidden.absent 1 exOut1 Hidden.absent batch_rollout_envDone1).2 0 0 0 0 0


end
